import Mathlib

/-!
Verification of the `unlink` lock-free stack (`src/base.rs`) against its
specification, for the single-threaded (sequential) fragment the claims talk
about.  With a single thread, every `compare_exchange` in `push`, `pop` and
`extend` succeeds on its first attempt, every hazard-pointer protection
stabilises immediately, and each operation is a plain function on the stack
state.  The state records the chain of values reachable from the `head`
pointer (top to bottom; the empty list models a null `head`) together with
the raw value of the `len: AtomicUsize` counter.  Machine integers are
modelled as `Nat` with explicit reduction modulo `2 ^ 64` where the code can
wrap.
-/

/-- Number of distinct values of a `usize` on the 64-bit target. -/
def USIZE : Nat := 2 ^ 64

/-- Value of `isize::MAX as usize` on the 64-bit target. -/
def ISIZE_MAX : Nat := 2 ^ 63 - 1

/-- Width in bytes of the `next: AtomicPtr<Node<V>>` field (64-bit target). -/
def PTR_BYTES : Nat := 8

/-- Sequential state of a `Stack<V>` (`src/base.rs`, lines 50-54): `chain` is
the list of node values reachable from `head`, top first (`[]` models a null
`head` pointer), and `len` is the raw value of the `len: AtomicUsize`
field. -/
structure Stack (V : Type) where
  chain : List V
  len : Nat
deriving DecidableEq

/-- Model of `Stack::new` (`src/base.rs`, lines 63-69): null head, counter
zero. -/
def Stack.new (V : Type) : Stack V :=
  { chain := [], len := 0 }

/-- Model of the public `Stack::len` (`src/base.rs`, lines 71-78): a relaxed
load of the counter, returned unchanged unless it exceeds
`isize::MAX as usize`, in which case 0 is returned.  Named `lenPub` because
the `len` field projection already takes the source name. -/
def Stack.lenPub (s : Stack V) : Nat :=
  if s.len > ISIZE_MAX then 0 else s.len

/-- Model of `Stack::push` (`src/base.rs`, lines 85-102): allocate a node for
`v`, store the current head into its next link, CAS the head to the new node
(first attempt succeeds sequentially), then `len.fetch_add(1, Relaxed)`, which
wraps as `usize` addition. -/
def Stack.push (s : Stack V) (v : V) : Stack V :=
  { chain := v :: s.chain, len := (s.len + 1) % USIZE }

/-- Model of `Stack::pop` (`src/base.rs`, lines 104-126): protect the head
(returning `none` on a null head), CAS the head to the protected node's next
link (first attempt succeeds sequentially), retire the old node and return
its value.  The `len` counter is not touched anywhere in `pop`. -/
def Stack.pop (s : Stack V) : Option V × Stack V :=
  match s.chain with
  | [] => (none, s)
  | v :: rest => (some v, { chain := rest, len := s.len })

/-- Model of `Stack::peek` (`src/base.rs`, lines 128-130): protect the head
(returning `none` on a null head) and hand back its value.  The body performs
no store, so the resulting state is returned to express that; it is provably
the input state. -/
def Stack.peek (s : Stack V) : Option V × Stack V :=
  match s.chain with
  | [] => (none, s)
  | v :: _ => (some v, s)

/-- Model of `Stack::extend` (`src/base.rs`, lines 132-165): if `other`'s head
is null, return with both stacks untouched.  Otherwise store null into
`other.head`, walk the detached chain to its tail, store `self`'s current head
into the tail's next link, and CAS `self.head` to the detached head (first
attempt succeeds sequentially).  Neither `len` field is touched.  The result
is the pair (destination state, source state) at the end of the body. -/
def Stack.extend (s other : Stack V) : Stack V × Stack V :=
  match other.chain with
  | [] => (s, other)
  | _ :: _ =>
    ({ chain := other.chain ++ s.chain, len := s.len },
     { chain := [], len := other.len })

/-- Memory of one `Node<V>` right after `Node::new`: the value field and the
bytes of the `next` field.  `Node::alloc` hands back uninitialized storage,
so the next-field bytes start out as arbitrary garbage, supplied here as the
parameter of the constructor functions below. -/
structure Node (V : Type) where
  val : V
  nextBytes : List Nat
deriving DecidableEq

/-- Model of `core::ptr::write_bytes(dst, b, count)` on a region typed as the
8-byte `AtomicPtr`: overwrite the first `count * PTR_BYTES` bytes with `b`,
leaving the rest as they were. -/
def writeBytes (orig : List Nat) (b : Nat) (count : Nat) : List Nat :=
  List.replicate (count * PTR_BYTES) b ++ orig.drop (count * PTR_BYTES)

/-- Model of `Node::new` (`src/base.rs`, lines 12-19): given the allocator
garbage `g` occupying the next-field bytes, write `val` into the value field
and run `write_bytes(&mut (*node).next, 0, 0)` — note the element count in
the source is 0. -/
def Node.new (val : V) (g : List Nat) : Node V :=
  { val := val, nextBytes := writeBytes g 0 0 }

/-- Run a whole list of pushes on `s`, in list order. -/
def Stack.pushAll (s : Stack V) (l : List V) : Stack V :=
  l.foldl Stack.push s

/-- Run `n` pops starting from `s`, collecting the `n` results in order. -/
def Stack.popAll (s : Stack V) : Nat → List (Option V)
  | 0 => []
  | n + 1 => (s.pop).1 :: ((s.pop).2.popAll n)

/-- Model of `FromIterator for Stack` (`src/base.rs`, lines 309-321): start
from `Stack::new` and push each element in iteration order. -/
def Stack.fromIter (l : List V) : Stack V :=
  Stack.pushAll (Stack.new V) l

/-- Model of one `IntoIter::next` (`src/base.rs`, lines 277-298): if the head
is null, yield nothing; otherwise advance the head to the node's next link,
read the value out and deallocate the node.  The `len` field is not
touched. -/
def IntoIter.next (s : Stack V) : Option V × Stack V :=
  match s.chain with
  | [] => (none, s)
  | v :: rest => (some v, { chain := rest, len := s.len })

/-- Drive `IntoIter::next` at most `fuel` times, collecting the yielded
values until the iterator is exhausted. -/
def IntoIter.drain (fuel : Nat) (s : Stack V) : List V :=
  match fuel with
  | 0 => []
  | fuel + 1 =>
    match IntoIter.next s with
    | (none, _) => []
    | (some v, s') => v :: IntoIter.drain fuel s'

lemma Stack.pushAll_chain (l : List V) :
    ∀ s : Stack V, (s.pushAll l).chain = l.reverse ++ s.chain := by
  induction l with
  | nil => intro s; simp [Stack.pushAll]
  | cons v rest ih =>
    intro s
    have h := ih (s.push v)
    simp only [Stack.pushAll] at h ⊢
    rw [List.foldl_cons, h]
    simp [Stack.push]

lemma Stack.popAll_self (s : Stack V) :
    s.popAll s.chain.length = s.chain.map some := by
  obtain ⟨c, k⟩ := s
  induction c generalizing k with
  | nil => simp [Stack.popAll]
  | cons v rest ih => simp [Stack.popAll, Stack.pop, ih]

lemma IntoIter.drain_self (fuel : Nat) :
    ∀ s : Stack V, s.chain.length ≤ fuel → IntoIter.drain fuel s = s.chain := by
  induction fuel with
  | zero =>
    intro s h
    obtain ⟨c, k⟩ := s
    simp only [List.length_eq_zero] at *
    cases c with
    | nil => simp [IntoIter.drain]
    | cons v rest => simp at h
  | succ fuel ih =>
    intro s h
    obtain ⟨c, k⟩ := s
    cases c with
    | nil => simp [IntoIter.drain, IntoIter.next]
    | cons v rest =>
      simp only [List.length_cons, Nat.succ_le_succ_iff] at h
      simp [IntoIter.drain, IntoIter.next, ih ⟨rest, k⟩ h]

/-- C1: for every sequence of N pushes executed on a single thread followed
by N pops on the same stack, all N pops return `some`, and the values come
back in exactly the reverse of the push order (LIFO). -/
theorem C1_push_pop_lifo (V : Type) (l : List V) :
    ((Stack.new V).pushAll l).popAll l.length = l.reverse.map some := by
  have hc : ((Stack.new V).pushAll l).chain = l.reverse := by
    simp [Stack.pushAll_chain, Stack.new]
  have hl : l.length = ((Stack.new V).pushAll l).chain.length := by
    rw [hc, List.length_reverse]
  rw [hl, Stack.popAll_self, hc]

/-- C2: for a destination stack with visible sequence `[a0..an]` and a source
stack with visible sequence `[b0..bm]`, after `extend(source)` with no
concurrent mutation the destination's visible sequence is exactly
`[b0..bm, a0..an]` and the source's visible sequence is empty. -/
theorem C2_extend_splice (V : Type) (dst src : Stack V) :
    ((dst.extend src).1).chain = src.chain ++ dst.chain ∧
    ((dst.extend src).2).chain = [] := by
  obtain ⟨c, k⟩ := src
  cases c <;> simp [Stack.extend]

/-- C3: `pop` and `peek` return `none` if and only if the stack's head is
null (the chain is empty); in every other case they return `some`, and no
other error condition exists in their result type. -/
theorem C3_pop_peek_none_iff_empty (V : Type) (s : Stack V) :
    ((s.pop).1 = none ↔ s.chain = []) ∧ ((s.peek).1 = none ↔ s.chain = []) := by
  obtain ⟨c, k⟩ := s
  cases c <;> simp [Stack.pop, Stack.peek]

/-- C4, behaviour of the code at the failing input: `pop` leaves the `len`
counter unchanged for every stack state, so after one push and one pop on a
fresh stack the public `len()` returns 1, not the 0 the claim requires. -/
theorem C4_pop_leaves_len_unchanged :
    (∀ (V : Type) (s : Stack V), ((s.pop).2).len = s.len) ∧
    (((Stack.new Nat).push 0).pop).2.lenPub = 1 := by
  constructor
  · intro V s
    obtain ⟨c, k⟩ := s
    cases c <;> simp [Stack.pop]
  · decide

/-- C5, behaviour of the code at the failing input: `Node::new` calls
`write_bytes` with an element count of 0, which writes nothing, so the
next-field bytes keep whatever garbage the allocator returned instead of
being zeroed; the value field does receive the value. -/
theorem C5_next_bytes_not_zeroed :
    (Node.new (0 : Nat) [1, 2, 3, 4, 5, 6, 7, 8]).nextBytes = [1, 2, 3, 4, 5, 6, 7, 8] ∧
    (Node.new (0 : Nat) [1, 2, 3, 4, 5, 6, 7, 8]).nextBytes ≠ List.replicate PTR_BYTES 0 ∧
    (Node.new (0 : Nat) [1, 2, 3, 4, 5, 6, 7, 8]).val = 0 := by
  refine ⟨by decide, by decide, rfl⟩

/-- C6: after `extend(source)` completes, the source stack's state is empty,
and a push on that state succeeds and makes its visible sequence
non-empty. -/
theorem C6_source_empty_then_usable (V : Type) (dst src : Stack V) (v : V) :
    ((dst.extend src).2).chain = [] ∧
    (((dst.extend src).2).push v).chain = [v] := by
  obtain ⟨c, k⟩ := src
  cases c <;> simp [Stack.extend, Stack.push]

/-- C7: `peek` never mutates the stack: the state after `peek` — head, chain
of reachable nodes and length counter — is exactly the state before. -/
theorem C7_peek_no_mutation (V : Type) (s : Stack V) :
    (s.peek).2 = s := by
  obtain ⟨c, k⟩ := s
  cases c <;> simp [Stack.peek]

/-- C8: collecting a sequence into a stack via `from_iter` (which pushes in
iteration order) and then consuming it via `into_iter` yields exactly the
reversed sequence, each value exactly once. -/
theorem C8_fromIter_intoIter_round_trip (V : Type) (l : List V) :
    IntoIter.drain l.length (Stack.fromIter l) = l.reverse := by
  have hc : (Stack.fromIter l).chain = l.reverse := by
    simp [Stack.fromIter, Stack.pushAll_chain, Stack.new]
  have hfuel : (Stack.fromIter l).chain.length ≤ l.length := by
    rw [hc, List.length_reverse]
  rw [IntoIter.drain_self l.length _ hfuel, hc]

/-- C9: `extend` modifies neither stack's length counter: both the raw
counters and the public `len()` results of the destination and of the source
are the same after `extend` as before. -/
theorem C9_extend_preserves_len (V : Type) (dst src : Stack V) :
    ((dst.extend src).1).len = dst.len ∧
    ((dst.extend src).2).len = src.len ∧
    ((dst.extend src).1).lenPub = dst.lenPub ∧
    ((dst.extend src).2).lenPub = src.lenPub := by
  obtain ⟨c, k⟩ := src
  cases c <;> simp [Stack.extend, Stack.lenPub]

/-- C10: the public `len()` never returns a value above
`isize::MAX as usize`: when the raw counter exceeds that bound it returns 0,
and otherwise it returns the counter unchanged. -/
theorem C10_len_clamped (V : Type) (s : Stack V) :
    s.lenPub ≤ ISIZE_MAX ∧
    (ISIZE_MAX < s.len → s.lenPub = 0) ∧
    (s.len ≤ ISIZE_MAX → s.lenPub = s.len) := by
  unfold Stack.lenPub
  by_cases h : s.len > ISIZE_MAX
  · rw [if_pos h]
    exact ⟨Nat.zero_le _, fun _ => rfl, fun hle => by omega⟩
  · rw [if_neg h]
    exact ⟨by omega, fun hlt => by omega, fun _ => rfl⟩

/-- Witness for C10: instantiating the clamp theorem at a counter of
`2 ^ 63` (above the bound) and at a counter of 5 (below the bound). -/
theorem C10_len_clamped_witness :
    (Stack.mk ([] : List Nat) (2 ^ 63)).lenPub = 0 ∧
    (Stack.mk ([] : List Nat) 5).lenPub = 5 :=
  ⟨(C10_len_clamped Nat ⟨[], 2 ^ 63⟩).2.1 (by decide),
   (C10_len_clamped Nat ⟨[], 5⟩).2.2 (by decide)⟩
